import Mathlib

/-!
Verification development for the `cppsock::socketaddr` value type
(`src/cppsock_socketaddr.cpp`): an address-family-aware endpoint value
holding either an IPv4 or an IPv6 address together with a port, stored in
the exact binary layout the operating system expects.

The storage is modelled as a list of bytes (natural numbers) of the fixed
size of the C `union` (modelled from the spec as a `sockaddr_storage`-sized
region, 128 bytes, on a little-endian host with the standard Linux layouts:
`sockaddr_in` = family(2) ++ port(2, network order) ++ addr(4) ++ zero(8),
`sockaddr_in6` = family(2) ++ port(2) ++ flowinfo(4) ++ addr(16) ++ scope(4)).

The platform functions `inet_pton` / `inet_ntop`, which the source calls but
does not define, are modelled from their documented behaviour (standard
dotted-decimal form for IPv4; colon-hex groups with at most one `::` and an
optional embedded dotted quad for IPv6; canonical compressed lowercase
printing for IPv6).
-/

namespace cppsock

/-- Address family tags, modelled from the spec: platform values
`AF_UNSPEC = 0`, `AF_INET = 2`, `AF_INET6 = 10`. -/
def AF_UNSPEC : Nat := 0

/-- The IPv4 address family discriminator. -/
def AF_INET : Nat := 2

/-- The IPv6 address family discriminator. -/
def AF_INET6 : Nat := 10

/-- Error code `EINVAL`, modelled from the spec: invalid address format. -/
def EINVAL : Nat := 22

/-- Error code `EAFNOSUPPORT`, modelled from the spec: address family not
supported. -/
def EAFNOSUPPORT : Nat := 97

/-- Size in bytes of the `union` holding the native address structures,
modelled from the spec: a fixed-capacity region large enough for either
representation (`sockaddr_storage`, 128 bytes). -/
def STORAGE_SIZE : Nat := 128

/-- Decimal digit test used by the platform parsers. -/
def isDig (c : Char) : Bool := decide (48 ≤ c.toNat ∧ c.toNat ≤ 57)

/-- Numeric value of a decimal digit character. -/
def dval (c : Char) : Nat := c.toNat - 48

/-- Numeric value of a hexadecimal digit character (upper or lower case),
`none` for non-hex characters; the platform parser's `hexval`. -/
def hexv (c : Char) : Option Nat :=
  if 48 ≤ c.toNat ∧ c.toNat ≤ 57 then some (c.toNat - 48)
  else if 97 ≤ c.toNat ∧ c.toNat ≤ 102 then some (c.toNat - 87)
  else if 65 ≤ c.toNat ∧ c.toNat ≤ 70 then some (c.toNat - 55)
  else none

/-- The character printing a decimal digit value. -/
def decDigit (n : Nat) : Char := Char.ofNat (48 + n)

/-- The character printing a hexadecimal digit value, lowercase. -/
def hexDigit (n : Nat) : Char := if n < 10 then Char.ofNat (48 + n) else Char.ofNat (87 + n)

/-- Fuel-driven canonical decimal printer (`sprintf` with a `%u` directive);
the fuel bounds the number of digits and `decChars` always supplies enough. -/
def decCharsAux : Nat → Nat → List Char → List Char
  | 0, _, acc => acc
  | fuel+1, n, acc =>
    if n < 10 then decDigit n :: acc
    else decCharsAux fuel (n / 10) (decDigit (n % 10) :: acc)

/-- Canonical decimal representation of a natural number, no leading zeros. -/
def decChars (n : Nat) : List Char := decCharsAux (n + 1) n []

/-- Fuel-driven canonical lowercase hexadecimal printer (`sprintf` with a
`%x` directive). -/
def hexCharsAux : Nat → Nat → List Char → List Char
  | 0, _, acc => acc
  | fuel+1, n, acc =>
    if n < 16 then hexDigit n :: acc
    else hexCharsAux fuel (n / 16) (hexDigit (n % 16) :: acc)

/-- Canonical lowercase hexadecimal representation, no leading zeros. -/
def hexChars (n : Nat) : List Char := hexCharsAux (n + 1) n []

/-- Accumulating decimal evaluation of a digit string. -/
def decValAux : Nat → List Char → Nat
  | a, [] => a
  | a, c :: cs => decValAux (a * 10 + dval c) cs

/-- Decimal value of a digit string. -/
def decVal (s : List Char) : Nat := decValAux 0 s

/-- A canonical decimal octet as accepted by the platform IPv4 parser:
nonempty, all decimal digits, no digit may follow a leading `'0'`, and the
value is at most 255. -/
def isCanonDec (s : List Char) : Bool :=
  (!s.isEmpty) && s.all isDig && (s.head? != some '0' || s.length == 1)
    && decide (decVal s ≤ 255)

/-- Split a character list at every `'.'` (the separators are consumed; a
list of `n` dots yields `n + 1` groups). -/
def splitOnDot : List Char → List (List Char)
  | [] => [[]]
  | c :: rest =>
    if c = '.' then [] :: splitOnDot rest
    else
      match splitOnDot rest with
      | [] => [[c]]
      | g :: gs => (c :: g) :: gs

/-- Rejoin groups with `'.'` separators; inverse of `splitOnDot`. -/
def joinDots : List (List Char) → List Char
  | [] => []
  | [g] => g
  | g :: gs => g ++ '.' :: joinDots gs

/-- Modelled from the spec: the platform `inet_pton` for `AF_INET`.  It
accepts exactly the standard dotted-decimal form `ddd.ddd.ddd.ddd`: four
groups separated by dots, each a canonical decimal number between 0 and 255
with no leading zeros, and returns the four address bytes. -/
def pton4 (l : List Char) : Option (List Nat) :=
  match splitOnDot l with
  | [a, b, c, d] =>
    if isCanonDec a && isCanonDec b && isCanonDec c && isCanonDec d then
      some [decVal a, decVal b, decVal c, decVal d]
    else none
  | _ => none

/-- Modelled from the spec: the platform `inet_ntop` for `AF_INET` renders
the four address bytes in dotted-decimal form. -/
def ntop4 (bs : List Nat) : List Char :=
  decChars (bs.getD 0 0) ++ '.' :: decChars (bs.getD 1 0) ++ '.' ::
    decChars (bs.getD 2 0) ++ '.' :: decChars (bs.getD 3 0)

/-- End-of-input processing of the IPv6 parser: flush the pending hex group,
then expand the `::` gap (recorded as an index into the assembled bytes) with
zero bytes so that the result is exactly 16 bytes. -/
def pton6Finish (val xd : Nat) (tp : List Nat) (colonp : Option Nat) : Option (List Nat) :=
  if xd > 0 ∧ tp.length + 2 > 16 then none
  else
    let tp2 := if xd > 0 then tp ++ [val / 256 % 256, val % 256] else tp
    match colonp with
    | some i =>
      if tp2.length = 16 then none
      else some (tp2.take i ++ List.replicate (16 - tp2.length) 0 ++ tp2.drop i)
    | none => if tp2.length = 16 then some tp2 else none

/-- Modelled from the spec: the scanning loop of the platform `inet_pton`
for `AF_INET6`.  State: remaining input, characters of the current hex
group, its accumulated value and digit count, assembled bytes, and the
recorded position of a `::` if one was seen.  A `'.'` hands the remainder
(from the start of the current group) to the IPv4 parser as an embedded
dotted quad. -/
def pton6Loop : List Char → List Char → Nat → Nat → List Nat → Option Nat → Option (List Nat)
  | [], _, val, xd, tp, colonp => pton6Finish val xd tp colonp
  | ch :: rest, gchars, val, xd, tp, colonp =>
    match hexv ch with
    | some d =>
      if xd = 4 then none
      else
        let val2 := val * 16 + d
        if val2 > 65535 then none
        else pton6Loop rest (gchars ++ [ch]) val2 (xd + 1) tp colonp
    | none =>
      if ch = ':' then
        if xd = 0 then
          match colonp with
          | some _ => none
          | none => pton6Loop rest [] 0 0 tp (some tp.length)
        else if rest = [] then none
        else if tp.length + 2 > 16 then none
        else pton6Loop rest [] 0 0 (tp ++ [val / 256 % 256, val % 256]) colonp
      else if ch = '.' ∧ tp.length + 4 ≤ 16 then
        match pton4 (gchars ++ ch :: rest) with
        | some b4 => pton6Finish 0 0 (tp ++ b4) colonp
        | none => none
      else none

/-- Modelled from the spec: the platform `inet_pton` for `AF_INET6`:
colon-separated groups of one to four hex digits, at most one `::`
abbreviation, an optional trailing embedded dotted quad, 16 bytes in all.
A single leading colon must be the start of a `::`. -/
def pton6 (l : List Char) : Option (List Nat) :=
  if l = [] then none
  else if l.head? = some ':' then
    if l.tail.head? = some ':' then pton6Loop l.tail [] 0 0 [] none else none
  else pton6Loop l [] 0 0 [] none

/-- Group pairs of bytes into big-endian 16-bit words. -/
def toWords : List Nat → List Nat
  | a :: b :: rest => (a * 256 + b) :: toWords rest
  | _ => []

/-- Keep the better (strictly longer) of the closed best run and the just
finished current run of zero words. -/
def bestMerge (best cur : Option (Nat × Nat)) : Option (Nat × Nat) :=
  match cur, best with
  | some c, some b => if c.2 > b.2 then some c else some b
  | some c, none => some c
  | none, b => b

/-- Scan for the leftmost longest run of zero words: `(base, length)`. -/
def bestRunAux : List Nat → Nat → Option (Nat × Nat) → Option (Nat × Nat) → Option (Nat × Nat)
  | [], _, best, cur => bestMerge best cur
  | w :: ws, i, best, cur =>
    if w = 0 then
      match cur with
      | none => bestRunAux ws (i + 1) best (some (i, 1))
      | some (b0, l0) => bestRunAux ws (i + 1) best (some (b0, l0 + 1))
    else bestRunAux ws (i + 1) (bestMerge best cur) none

/-- The run of zero words abbreviated as `::`; runs of length one are not
abbreviated. -/
def bestRun (ws : List Nat) : Option (Nat × Nat) :=
  match bestRunAux ws 0 none none with
  | some (b, l) => if l < 2 then none else some (b, l)
  | none => none

/-- Is word index `i` inside the chosen zero run? -/
def inRun (best : Option (Nat × Nat)) (i : Nat) : Bool :=
  match best with
  | some (b, l) => decide (b ≤ i ∧ i < b + l)
  | none => false

/-- Base index of the chosen run (9 acts as a never-matching sentinel). -/
def runBase (best : Option (Nat × Nat)) : Nat :=
  match best with
  | some (b, _) => b
  | none => 9

/-- The special IPv4-embedded forms recognised by the printer
(`::a.b.c.d` and `::ffff:a.b.c.d`). -/
def v4Embedded (ws : List Nat) (best : Option (Nat × Nat)) : Bool :=
  match best with
  | some (b, l) =>
    decide (b = 0 ∧ (l = 6 ∨ (l = 7 ∧ ws.getD 7 0 ≠ 1) ∨ (l = 5 ∧ ws.getD 5 0 = 65535)))
  | none => false

/-- The word-formatting loop of the platform `inet_ntop` for `AF_INET6`:
words in the chosen zero run are skipped (emitting one `':'` at its base),
other words print in lowercase hex preceded by `':'` when not first, and at
index 6 an embedded IPv4 tail prints as a dotted quad and stops the loop. -/
def ntop6Go (ws bs : List Nat) (best : Option (Nat × Nat)) : Nat → Nat → List Char
  | 0, _ => []
  | fuel+1, i =>
    if 8 ≤ i then []
    else if inRun best i then
      (if i = runBase best then [':'] else []) ++ ntop6Go ws bs best fuel (i + 1)
    else
      (if i ≠ 0 then [':'] else []) ++
        (if i = 6 ∧ v4Embedded ws best = true then ntop4 ((bs.drop 12).take 4)
         else hexChars (ws.getD i 0) ++ ntop6Go ws bs best fuel (i + 1))

/-- Modelled from the spec: the platform `inet_ntop` for `AF_INET6` renders
the 16 address bytes in canonical compressed lowercase colon-hex form, with
a trailing `':'` when the zero run reaches the end. -/
def ntop6 (bs : List Nat) : List Char :=
  let ws := toWords (bs.take 16)
  let best := bestRun ws
  ntop6Go ws bs best 8 0 ++
    (match best with
     | some (b, l) => if b + l = 8 then [':'] else []
     | none => [])

/-- Family dispatch of the platform `inet_pton`: unknown families fail (the
C function returns -1 there, which `socketaddr::is` treats as failure). -/
def inet_pton (fam : Nat) (l : List Char) : Option (List Nat) :=
  if fam = AF_INET then pton4 l else if fam = AF_INET6 then pton6 l else none

/-- `socketaddr::is`: does `ip` parse as a literal of family `family`? -/
def is (fam : Nat) (ip : List Char) : Bool := (inet_pton fam ip).isSome

/-- `socketaddr::is_ipv4`. -/
def is_ipv4 (ip : List Char) : Bool := is AF_INET ip

/-- `socketaddr::is_ipv6`. -/
def is_ipv6 (ip : List Char) : Bool := is AF_INET6 ip

/-- The `socketaddr` value: the raw bytes of the C `union`, always exactly
`STORAGE_SIZE` bytes (the size of the union is fixed by its type). -/
structure socketaddr where
  sa : List Nat
  hlen : sa.length = STORAGE_SIZE

instance : DecidableEq socketaddr :=
  fun a b =>
    if h : a.sa = b.sa then
      isTrue (by cases a; cases b; cases h; rfl)
    else isFalse (fun hh => h (by rw [hh]))

/-- The default constructor: `memset(&sa, 0, sizeof(sa))`. -/
def socketaddrDefault : socketaddr := ⟨List.replicate STORAGE_SIZE 0, by simp⟩

/-- Overwrite `bs.length` bytes of `l` starting at offset `off` (a
`memcpy` into the middle of the storage). -/
def writeAt (l : List Nat) (off : Nat) (bs : List Nat) : List Nat :=
  l.take off ++ bs ++ l.drop (off + bs.length)

/-- `writeAt` on the structure, keeping the length invariant (all calls in
the source stay inside the union, so the guard always holds there). -/
def writeA (a : socketaddr) (off : Nat) (bs : List Nat) : socketaddr :=
  if h : off + bs.length ≤ a.sa.length then
    ⟨writeAt a.sa off bs, by
      have hl := a.hlen
      simp [writeAt]
      omega⟩
  else a

/-- The two bytes of the family tag as laid out in memory (a 16-bit host
value; the reference host is little-endian). -/
def famBytes (fam : Nat) : List Nat := [fam % 256, fam / 256 % 256]

/-- `socketaddr::set_family`: zero the whole storage, then store the tag. -/
def set_family (_a : socketaddr) (fam : Nat) : socketaddr :=
  ⟨famBytes fam ++ List.replicate (STORAGE_SIZE - 2) 0, by simp [famBytes, STORAGE_SIZE]⟩

/-- `socketaddr::get_family` (also the reference-returning overload). -/
def get_family (a : socketaddr) : Nat := a.sa.getD 0 0 + 256 * a.sa.getD 1 0

/-- `socketaddr::set_addr`: dispatch on the stored family, parse the text
for that family and write the payload bytes at the family's address offset
(4 for IPv4, 8 for IPv6); `EAFNOSUPPORT` for other families, `EINVAL` when
the text does not parse.  Returns the error code with the updated value. -/
def set_addr (a : socketaddr) (ip : List Char) : Nat × socketaddr :=
  if get_family a = AF_INET then
    match pton4 ip with
    | some bs => (0, writeA a 4 bs)
    | none => (EINVAL, a)
  else if get_family a = AF_INET6 then
    match pton6 ip with
    | some bs => (0, writeA a 8 bs)
    | none => (EINVAL, a)
  else (EAFNOSUPPORT, a)

/-- `cppsock::hton` on a 16-bit port: the two bytes in network order. -/
def hton16 (port : Nat) : List Nat := [port / 256 % 256, port % 256]

/-- Host value of a stored network-order 16-bit port (`cppsock::ntoh`). -/
def ntoh16 (hi lo : Nat) : Nat := hi * 256 + lo

/-- `socketaddr::set_port`: store the port in network order at the family's
port offset (offset 2 in both layouts); `EAFNOSUPPORT` otherwise. -/
def set_port (a : socketaddr) (port : Nat) : Nat × socketaddr :=
  if get_family a = AF_INET then (0, writeA a 2 (hton16 port))
  else if get_family a = AF_INET6 then (0, writeA a 2 (hton16 port))
  else (EAFNOSUPPORT, a)

/-- The tail of `socketaddr::set(addr, port)` after the family was set:
delegate to `set_addr`, then `set_port`, stopping at the first error. -/
def setFrom (a1 : socketaddr) (addr : List Char) (port : Nat) : Nat × socketaddr :=
  if (set_addr a1 addr).1 ≠ 0 then set_addr a1 addr
  else if (set_port (set_addr a1 addr).2 port).1 ≠ 0 then set_port (set_addr a1 addr).2 port
  else (0, (set_port (set_addr a1 addr).2 port).2)

/-- `socketaddr::set(addr, port)`: probe the text as IPv4 then IPv6, set
the detected family and delegate; `EAFNOSUPPORT` without touching the value
when neither literal form matches. -/
def set (a : socketaddr) (addr : List Char) (port : Nat) : Nat × socketaddr :=
  if is AF_INET addr = true then setFrom (set_family a AF_INET) addr port
  else if is AF_INET6 addr = true then setFrom (set_family a AF_INET6) addr port
  else (EAFNOSUPPORT, a)

/-- The family discriminator read from a raw native structure (first two
bytes, host order). -/
def rawFam (raw : List Nat) : Nat := raw.getD 0 0 + 256 * raw.getD 1 0

/-- `socketaddr::set(const sockaddr*)`: zero the storage with family
`AF_UNSPEC`, then copy exactly the bytes of the family-specific layout
(16 for `sockaddr_in`, 28 for `sockaddr_in6`) when the discriminator of the
input matches; any other discriminator leaves the zeroed state. -/
def setNative (a : socketaddr) (raw : List Nat) : socketaddr :=
  let z := set_family a AF_UNSPEC
  if rawFam raw = AF_INET then writeA z 0 (raw.take 16)
  else if rawFam raw = AF_INET6 then writeA z 0 (raw.take 28)
  else z

/-- `socketaddr::get_addr(std::string&)`: render the stored payload with the
platform printer for the stored family; on `EAFNOSUPPORT` the buffer is left
unchanged.  Returns the error code with the (possibly updated) buffer. -/
def get_addrB (a : socketaddr) (buf : List Char) : Nat × List Char :=
  if get_family a = AF_INET then (0, ntop4 ((a.sa.drop 4).take 4))
  else if get_family a = AF_INET6 then (0, ntop6 ((a.sa.drop 8).take 16))
  else (EAFNOSUPPORT, buf)

/-- `socketaddr::get_port(uint16_t&)`: the stored port converted to host
order; on `EAFNOSUPPORT` the output variable is left unchanged. -/
def get_portB (a : socketaddr) (port : Nat) : Nat × Nat :=
  if get_family a = AF_INET then (0, ntoh16 (a.sa.getD 2 0) (a.sa.getD 3 0))
  else if get_family a = AF_INET6 then (0, ntoh16 (a.sa.getD 2 0) (a.sa.getD 3 0))
  else (EAFNOSUPPORT, port)

/-- `socketaddr::get_addr()` (value-returning overload): a default-empty
string passed through the fallible accessor, the error discarded. -/
def get_addrS (a : socketaddr) : List Char := (get_addrB a []).2

/-- `socketaddr::get_port()` (value-returning overload): a zero-initialised
port passed through the fallible accessor, the error discarded. -/
def get_portS (a : socketaddr) : Nat := (get_portB a 0).2

/-- `memcmp` over byte lists: `.lt`, `.eq`, `.gt` stand for a negative,
zero, positive C result. -/
def memcmpBytes : List Nat → List Nat → Ordering
  | [], [] => Ordering.eq
  | [], _ :: _ => Ordering.lt
  | _ :: _, [] => Ordering.gt
  | a :: as, b :: bs =>
    if a < b then Ordering.lt
    else if b < a then Ordering.gt
    else memcmpBytes as bs

/-- `socketaddr::operator==`: `memcmp` over the whole storage is zero. -/
def saEq (a b : socketaddr) : Bool := decide (memcmpBytes a.sa b.sa = Ordering.eq)

/-- `socketaddr::operator<`: `memcmp` over the whole storage is negative. -/
def saLt (a b : socketaddr) : Bool := decide (memcmpBytes a.sa b.sa = Ordering.lt)

/-- `cppsock::operator<<`: `addr:port` for IPv4, `[addr]:port` for IPv6
(through the value-returning accessors), a fixed error string otherwise. -/
def display (a : socketaddr) : List Char :=
  if get_family a = AF_INET then get_addrS a ++ ':' :: decChars (get_portS a)
  else if get_family a = AF_INET6 then
    '[' :: get_addrS a ++ ']' :: ':' :: decChars (get_portS a)
  else ("error: unknown address family").data

/-- `socketaddr::set_addr` with the process-wide `errno` made explicit:
both failure returns in the source are `return errno = code;`. -/
def set_addrE (a : socketaddr) (ip : List Char) (errno : Nat) : Nat × socketaddr × Nat :=
  if get_family a = AF_INET then
    match pton4 ip with
    | some bs => (0, writeA a 4 bs, errno)
    | none => (EINVAL, a, EINVAL)
  else if get_family a = AF_INET6 then
    match pton6 ip with
    | some bs => (0, writeA a 8 bs, errno)
    | none => (EINVAL, a, EINVAL)
  else (EAFNOSUPPORT, a, EAFNOSUPPORT)

/-- `socketaddr::set_port` with `errno` explicit: the failure return is
`return errno = EAFNOSUPPORT;`. -/
def set_portE (a : socketaddr) (port : Nat) (errno : Nat) : Nat × socketaddr × Nat :=
  if get_family a = AF_INET then (0, writeA a 2 (hton16 port), errno)
  else if get_family a = AF_INET6 then (0, writeA a 2 (hton16 port), errno)
  else (EAFNOSUPPORT, a, EAFNOSUPPORT)

/-- Delegation tail of `socketaddr::set` with `errno` explicit. -/
def setFromE (a1 : socketaddr) (addr : List Char) (port : Nat) (errno : Nat) :
    Nat × socketaddr × Nat :=
  if (set_addrE a1 addr errno).1 ≠ 0 then set_addrE a1 addr errno
  else if (set_portE (set_addrE a1 addr errno).2.1 port (set_addrE a1 addr errno).2.2).1 ≠ 0 then
    set_portE (set_addrE a1 addr errno).2.1 port (set_addrE a1 addr errno).2.2
  else (0, (set_portE (set_addrE a1 addr errno).2.1 port (set_addrE a1 addr errno).2.2).2.1,
    (set_portE (set_addrE a1 addr errno).2.1 port (set_addrE a1 addr errno).2.2).2.2)

/-- `socketaddr::set(addr, port)` with `errno` explicit: the unrecognised
text path is `return errno = EAFNOSUPPORT;`. -/
def setE (a : socketaddr) (addr : List Char) (port : Nat) (errno : Nat) :
    Nat × socketaddr × Nat :=
  if is AF_INET addr = true then setFromE (set_family a AF_INET) addr port errno
  else if is AF_INET6 addr = true then setFromE (set_family a AF_INET6) addr port errno
  else (EAFNOSUPPORT, a, EAFNOSUPPORT)

/-- `socketaddr::get_addr(std::string&)` with `errno` explicit: the failure
return is `return errno = EAFNOSUPPORT;`. -/
def get_addrE (a : socketaddr) (buf : List Char) (errno : Nat) : Nat × List Char × Nat :=
  if get_family a = AF_INET then (0, ntop4 ((a.sa.drop 4).take 4), errno)
  else if get_family a = AF_INET6 then (0, ntop6 ((a.sa.drop 8).take 16), errno)
  else (EAFNOSUPPORT, buf, EAFNOSUPPORT)

/-- `socketaddr::get_port(uint16_t&)` with `errno` explicit: the failure
return is a plain `return EAFNOSUPPORT;` and never assigns `errno`. -/
def get_portE (a : socketaddr) (port : Nat) (errno : Nat) : Nat × Nat × Nat :=
  if get_family a = AF_INET then (0, ntoh16 (a.sa.getD 2 0) (a.sa.getD 3 0), errno)
  else if get_family a = AF_INET6 then (0, ntoh16 (a.sa.getD 2 0) (a.sa.getD 3 0), errno)
  else (EAFNOSUPPORT, port, errno)

end cppsock

namespace cppsock

theorem socketaddr_ext {a b : socketaddr} (h : a.sa = b.sa) : a = b := by
  cases a; cases b; cases h; rfl

theorem memcmpBytes_refl : ∀ l : List Nat, memcmpBytes l l = Ordering.eq := by
  intro l
  induction l with
  | nil => rfl
  | cons a as ih => simp [memcmpBytes, ih]

theorem memcmpBytes_eq_iff : ∀ l m : List Nat, memcmpBytes l m = Ordering.eq ↔ l = m := by
  intro l
  induction l with
  | nil => intro m; cases m <;> simp [memcmpBytes]
  | cons a as ih =>
    intro m
    cases m with
    | nil => simp [memcmpBytes]
    | cons b bs =>
      by_cases hab : a < b
      · simp only [memcmpBytes, if_pos hab]
        constructor
        · intro h; exact absurd h (by simp)
        · rintro h
          injection h with h1 h2
          omega
      · by_cases hba : b < a
        · simp only [memcmpBytes, if_neg hab, if_pos hba]
          constructor
          · intro h; exact absurd h (by simp)
          · rintro h
            injection h with h1 h2
            omega
        · have : a = b := by omega
          subst this
          simp only [memcmpBytes, if_neg hab, if_neg hba]
          rw [ih bs]
          simp

theorem memcmpBytes_swap : ∀ l m : List Nat, memcmpBytes m l = (memcmpBytes l m).swap := by
  intro l
  induction l with
  | nil => intro m; cases m <;> simp [memcmpBytes, Ordering.swap]
  | cons a as ih =>
    intro m
    cases m with
    | nil => simp [memcmpBytes, Ordering.swap]
    | cons b bs =>
      by_cases hab : a < b
      · have : ¬ b < a := by omega
        simp [memcmpBytes, hab, this, Ordering.swap]
      · by_cases hba : b < a
        · simp [memcmpBytes, hab, hba, Ordering.swap]
        · simp [memcmpBytes, hab, hba, ih bs]

theorem memcmpBytes_lt_trans : ∀ l m k : List Nat, memcmpBytes l m = Ordering.lt →
    memcmpBytes m k = Ordering.lt → memcmpBytes l k = Ordering.lt := by
  intro l
  induction l with
  | nil =>
    intro m k h1 h2
    cases m with
    | nil => exact h2
    | cons b bs =>
      cases k with
      | nil => simp [memcmpBytes] at h2
      | cons c cs => simp [memcmpBytes]
  | cons a as ih =>
    intro m k h1 h2
    cases m with
    | nil => simp [memcmpBytes] at h1
    | cons b bs =>
      cases k with
      | nil => simp [memcmpBytes] at h2
      | cons c cs =>
        by_cases hab : a < b
        · by_cases hbc : b < c
          · have hac : a < c := by omega
            simp [memcmpBytes, hac]
          · by_cases hcb : c < b
            · simp [memcmpBytes, hbc, hcb] at h2
            · have e2 : b = c := by omega
              subst e2
              simp [memcmpBytes, hab]
        · by_cases hba : b < a
          · simp [memcmpBytes, hab, hba] at h1
          · have e1 : a = b := by omega
            subst e1
            by_cases hac : a < c
            · simp [memcmpBytes, hac]
            · by_cases hca : c < a
              · simp [memcmpBytes, hac, hca] at h2
              · have e2 : a = c := by omega
                subst e2
                simp only [memcmpBytes, if_neg hab] at h1 h2 ⊢
                exact ih bs cs h1 h2

end cppsock

namespace cppsock

theorem decDigit_dval {c : Char} (h : isDig c = true) : decDigit (dval c) = c := by
  have h2 : 48 ≤ c.toNat ∧ c.toNat ≤ 57 := by simpa [isDig] using h
  have e : 48 + (c.toNat - 48) = c.toNat := by omega
  simp [decDigit, dval, e]

theorem dval_lt10 {c : Char} (h : isDig c = true) : dval c < 10 := by
  have h2 : 48 ≤ c.toNat ∧ c.toNat ≤ 57 := by simpa [isDig] using h
  simp only [dval]
  omega

theorem dval_pos {c : Char} (h : isDig c = true) (h0 : c ≠ '0') : 1 ≤ dval c := by
  have h2 : 48 ≤ c.toNat ∧ c.toNat ≤ 57 := by simpa [isDig] using h
  have hne : c.toNat ≠ 48 := by
    intro e
    apply h0
    have e2 : Char.ofNat c.toNat = Char.ofNat 48 := by rw [e]
    rw [Char.ofNat_toNat] at e2
    rw [e2]
  simp only [dval]
  omega

theorem decValAux_nil (a : Nat) : decValAux a [] = a := rfl

theorem decValAux_cons (a : Nat) (c : Char) (cs : List Char) :
    decValAux a (c :: cs) = decValAux (a * 10 + dval c) cs := rfl

theorem decValAux_append (s : List Char) (c : Char) : ∀ a : Nat,
    decValAux a (s ++ [c]) = decValAux a s * 10 + dval c := by
  induction s with
  | nil => intro a; simp [decValAux_nil, decValAux_cons]
  | cons x xs ih => intro a; simp [decValAux_cons, ih]

theorem decValAux_le (s : List Char) : ∀ a : Nat, a ≤ decValAux a s := by
  induction s with
  | nil => intro a; simp [decValAux_nil]
  | cons x xs ih =>
    intro a
    have h1 : a ≤ a * 10 + dval x := by omega
    rw [decValAux_cons]
    calc a ≤ a * 10 + dval x := h1
      _ ≤ decValAux (a * 10 + dval x) xs := ih _

theorem decVal_pos {c : Char} {cs : List Char} (h : isDig c = true) (h0 : c ≠ '0') :
    1 ≤ decVal (c :: cs) := by
  have h1 : 1 ≤ dval c := dval_pos h h0
  have h2 : dval c ≤ decValAux (dval c) cs := decValAux_le cs (dval c)
  have e : decVal (c :: cs) = decValAux (dval c) cs := by
    simp [decVal, decValAux_cons]
  omega

theorem decCharsAux_zero (n : Nat) (acc : List Char) : decCharsAux 0 n acc = acc := rfl

theorem decCharsAux_succ (f n : Nat) (acc : List Char) :
    decCharsAux (f + 1) n acc =
      if n < 10 then decDigit n :: acc
      else decCharsAux f (n / 10) (decDigit (n % 10) :: acc) := rfl

theorem decCharsAux_acc : ∀ (fuel n : Nat) (acc : List Char),
    decCharsAux fuel n acc = decCharsAux fuel n [] ++ acc := by
  intro fuel
  induction fuel with
  | zero => intro n acc; simp [decCharsAux_zero]
  | succ f ih =>
    intro n acc
    by_cases h : n < 10
    · simp [decCharsAux_succ, h]
    · simp only [decCharsAux_succ, if_neg h]
      rw [ih (n / 10) (decDigit (n % 10) :: acc), ih (n / 10) [decDigit (n % 10)]]
      simp

theorem decCharsAux_fuel : ∀ (n f1 f2 : Nat), n < f1 → n < f2 → ∀ acc : List Char,
    decCharsAux f1 n acc = decCharsAux f2 n acc := by
  intro n
  induction n using Nat.strong_induction_on with
  | _ n ih =>
    intro f1 f2 h1 h2 acc
    obtain ⟨g1, rfl⟩ : ∃ g1, f1 = g1 + 1 := ⟨f1 - 1, by omega⟩
    obtain ⟨g2, rfl⟩ : ∃ g2, f2 = g2 + 1 := ⟨f2 - 1, by omega⟩
    by_cases h : n < 10
    · simp [decCharsAux_succ, h]
    · simp only [decCharsAux_succ, if_neg h]
      exact ih (n / 10) (by omega) g1 g2 (by omega) (by omega) _

theorem decChars_lt10 {n : Nat} (h : n < 10) : decChars n = [decDigit n] := by
  simp [decChars, decCharsAux_succ, h]

theorem decChars_step {v d : Nat} (hv : 1 ≤ v) (hd : d < 10) :
    decChars (v * 10 + d) = decChars v ++ [decDigit d] := by
  have h10 : ¬ v * 10 + d < 10 := by omega
  show decCharsAux (v * 10 + d + 1) (v * 10 + d) [] = _
  rw [decCharsAux_succ, if_neg h10]
  have e1 : (v * 10 + d) / 10 = v := by omega
  have e2 : (v * 10 + d) % 10 = d := by omega
  rw [e1, e2]
  rw [decCharsAux_fuel v (v * 10 + d) (v + 1) (by omega) (by omega)]
  rw [decCharsAux_acc]
  rfl

theorem decChars_decVal : ∀ s : List Char, s ≠ [] → s.all isDig = true →
    (s.head? = some '0' → s.length = 1) → decChars (decVal s) = s := by
  intro s
  induction s using List.reverseRecOn with
  | nil => intro h; exact absurd rfl h
  | append_singleton t c ih =>
    intro hne hall hhead
    have hallt : t.all isDig = true := by
      rw [List.all_append] at hall
      exact (Bool.and_eq_true _ _ |>.mp hall).1
    have hc : isDig c = true := by
      rw [List.all_append] at hall
      have h2 := (Bool.and_eq_true _ _ |>.mp hall).2
      simpa using h2
    cases t with
    | nil =>
      have e : decVal [c] = dval c := by simp [decVal, decValAux_cons, decValAux_nil]
      simp only [List.nil_append]
      rw [e, decChars_lt10 (dval_lt10 hc), decDigit_dval hc]
    | cons x xs =>
      have hx : isDig x = true := by
        simp [List.all_cons, Bool.and_eq_true] at hallt
        exact hallt.1
      have hx0 : x ≠ '0' := by
        intro e
        subst e
        have hh : ((('0' : Char) :: xs) ++ [c]).head? = some '0' := by simp
        have h3 := hhead hh
        simp at h3
      have hpos : 1 ≤ decVal (x :: xs) := decVal_pos hx hx0
      have hsval : decVal ((x :: xs) ++ [c]) = decVal (x :: xs) * 10 + dval c :=
        decValAux_append (x :: xs) c 0
      rw [hsval, decChars_step hpos (dval_lt10 hc)]
      rw [ih (by simp) hallt (fun hh => by
        simp at hh
        exact absurd hh hx0)]
      rw [decDigit_dval hc]

theorem splitOnDot_ne_nil : ∀ l : List Char, splitOnDot l ≠ [] := by
  intro l
  cases l with
  | nil => simp [splitOnDot]
  | cons c rest =>
    by_cases h : c = '.'
    · simp [splitOnDot, h]
    · simp only [splitOnDot, if_neg h]
      cases hg : splitOnDot rest <;> simp

theorem joinDots_splitOnDot : ∀ l : List Char, joinDots (splitOnDot l) = l := by
  intro l
  induction l with
  | nil => rfl
  | cons c rest ih =>
    by_cases h : c = '.'
    · subst h
      simp only [splitOnDot, if_pos rfl]
      cases hg : splitOnDot rest with
      | nil => exact absurd hg (splitOnDot_ne_nil rest)
      | cons g gs =>
        rw [hg] at ih
        simp only [joinDots]
        rw [ih]
        rfl
    · simp only [splitOnDot, if_neg h]
      cases hg : splitOnDot rest with
      | nil => exact absurd hg (splitOnDot_ne_nil rest)
      | cons g gs =>
        rw [hg] at ih
        cases gs with
        | nil => simp only [joinDots] at ih ⊢; rw [ih]
        | cons g2 gs2 =>
          simp only [joinDots] at ih ⊢
          rw [List.cons_append, ih]

theorem isCanonDec_spec {s : List Char} (h : isCanonDec s = true) :
    s ≠ [] ∧ s.all isDig = true ∧ (s.head? = some '0' → s.length = 1) ∧ decVal s ≤ 255 := by
  simp only [isCanonDec, Bool.and_eq_true, Bool.or_eq_true, bne_iff_ne, beq_iff_eq,
    Bool.not_eq_true', List.isEmpty_eq_false, decide_eq_true_eq] at h
  refine ⟨h.1.1.1, h.1.1.2, ?_, h.2⟩
  intro hh
  rcases h.1.2 with h3 | h3
  · exact absurd hh h3
  · exact h3

theorem isCanonDec_decChars {s : List Char} (h : isCanonDec s = true) :
    decChars (decVal s) = s := by
  obtain ⟨h1, h2, h3, _⟩ := isCanonDec_spec h
  exact decChars_decVal s h1 h2 h3

theorem pton4_length {l : List Char} {bs : List Nat} (h : pton4 l = some bs) :
    bs.length = 4 := by
  unfold pton4 at h
  split at h
  · split at h
    · injection h with h2
      subst h2
      rfl
    · exact absurd h (by simp)
  · exact absurd h (by simp)

theorem pton4_ntop4 {l : List Char} {bs : List Nat} (h : pton4 l = some bs) :
    ntop4 bs = l := by
  unfold pton4 at h
  split at h
  case _ a b c d heq =>
    split at h
    case _ hc =>
      injection h with h2
      subst h2
      simp only [Bool.and_eq_true] at hc
      have ea := isCanonDec_decChars hc.1.1.1
      have eb := isCanonDec_decChars hc.1.1.2
      have ec := isCanonDec_decChars hc.1.2
      have ed := isCanonDec_decChars hc.2
      have hj := joinDots_splitOnDot l
      rw [heq] at hj
      simp only [joinDots] at hj
      simp only [ntop4, List.getD]
      norm_num
      rw [ea, eb, ec, ed]
      exact hj
    case _ => exact absurd h (by simp)
  case _ => exact absurd h (by simp)

theorem pton6Finish_core_none {t2 bs : List Nat}
    (h : (if t2.length = 16 then some t2 else none) = some bs) : bs.length = 16 := by
  split at h
  case _ he =>
    injection h with h3
    subst h3
    exact he
  · exact absurd h (by simp)

theorem pton6Finish_core_some {t2 bs : List Nat} {i : Nat}
    (ht : t2.length ≤ 16) (hi : i ≤ t2.length)
    (h : (if t2.length = 16 then none
          else some (t2.take i ++ List.replicate (16 - t2.length) 0 ++ t2.drop i)) = some bs) :
    bs.length = 16 := by
  split at h
  · exact absurd h (by simp)
  case _ he =>
    injection h with h3
    subst h3
    simp only [List.length_append, List.length_take, List.length_replicate, List.length_drop]
    omega

theorem pton6Finish_length {val xd : Nat} {tp : List Nat} {colonp : Option Nat} {bs : List Nat}
    (htp : tp.length ≤ 16) (hc : ∀ i, colonp = some i → i ≤ tp.length)
    (h : pton6Finish val xd tp colonp = some bs) : bs.length = 16 := by
  simp only [pton6Finish] at h
  split at h
  · exact absurd h (by simp)
  case _ hguard =>
    by_cases hxd : xd > 0
    · simp only [if_pos hxd] at h
      have ht2 : (tp ++ [val / 256 % 256, val % 256]).length ≤ 16 := by
        simp only [List.length_append, List.length_cons, List.length_nil]
        omega
      cases colonp with
      | none =>
        simp only at h
        exact pton6Finish_core_none h
      | some i =>
        have hi : i ≤ tp.length := hc i rfl
        simp only at h
        refine pton6Finish_core_some ht2 ?_ h
        simp only [List.length_append]
        omega
    · simp only [if_neg hxd] at h
      cases colonp with
      | none =>
        simp only at h
        exact pton6Finish_core_none h
      | some i =>
        have hi : i ≤ tp.length := hc i rfl
        simp only at h
        exact pton6Finish_core_some htp hi h

theorem pton6Loop_nil (gchars : List Char) (val xd : Nat) (tp : List Nat)
    (colonp : Option Nat) :
    pton6Loop [] gchars val xd tp colonp = pton6Finish val xd tp colonp := rfl

theorem pton6Loop_cons (ch : Char) (rest gchars : List Char) (val xd : Nat)
    (tp : List Nat) (colonp : Option Nat) :
    pton6Loop (ch :: rest) gchars val xd tp colonp =
      match hexv ch with
      | some d =>
        if xd = 4 then none
        else
          if val * 16 + d > 65535 then none
          else pton6Loop rest (gchars ++ [ch]) (val * 16 + d) (xd + 1) tp colonp
      | none =>
        if ch = ':' then
          if xd = 0 then
            match colonp with
            | some _ => none
            | none => pton6Loop rest [] 0 0 tp (some tp.length)
          else if rest = [] then none
          else if tp.length + 2 > 16 then none
          else pton6Loop rest [] 0 0 (tp ++ [val / 256 % 256, val % 256]) colonp
        else if ch = '.' ∧ tp.length + 4 ≤ 16 then
          match pton4 (gchars ++ ch :: rest) with
          | some b4 => pton6Finish 0 0 (tp ++ b4) colonp
          | none => none
        else none := rfl

theorem pton6Loop_length : ∀ (src gchars : List Char) (val xd : Nat) (tp : List Nat)
    (colonp : Option Nat) (bs : List Nat), tp.length ≤ 16 →
    (∀ i, colonp = some i → i ≤ tp.length) →
    pton6Loop src gchars val xd tp colonp = some bs → bs.length = 16 := by
  intro src
  induction src with
  | nil =>
    intro gchars val xd tp colonp bs htp hc h
    rw [pton6Loop_nil] at h
    exact pton6Finish_length htp hc h
  | cons ch rest ih =>
    intro gchars val xd tp colonp bs htp hc h
    rw [pton6Loop_cons] at h
    cases hx : hexv ch with
    | some d =>
      simp only [hx] at h
      split at h
      · exact absurd h (by simp)
      split at h
      · exact absurd h (by simp)
      exact ih _ _ _ _ _ _ htp hc h
    | none =>
      simp only [hx] at h
      split at h
      case _ hcolon =>
        split at h
        case _ hxd =>
          cases colonp with
          | some j => exact absurd h (by simp)
          | none =>
            simp only at h
            exact ih _ _ _ _ _ _ htp (by intro i hi; injection hi with hi2; omega) h
        case _ hxd =>
          split at h
          · exact absurd h (by simp)
          split at h
          · exact absurd h (by simp)
          case _ hrest hlen =>
            have htp2 : (tp ++ [val / 256 % 256, val % 256]).length ≤ 16 := by
              simp only [List.length_append, List.length_cons, List.length_nil]
              omega
            refine ih _ _ _ _ _ _ htp2 ?_ h
            intro i hi
            have := hc i hi
            simp only [List.length_append]
            omega
      case _ hcolon =>
        split at h
        case _ hdot =>
          cases hp : pton4 (gchars ++ ch :: rest) with
          | some b4 =>
            simp only [hp] at h
            have hb4 : b4.length = 4 := pton4_length hp
            refine pton6Finish_length ?_ ?_ h
            · simp only [List.length_append]
              omega
            · intro i hi
              have := hc i hi
              simp only [List.length_append]
              omega
          | none => simp [hp] at h
        case _ => exact absurd h (by simp)

theorem pton6_length {l : List Char} {bs : List Nat} (h : pton6 l = some bs) :
    bs.length = 16 := by
  unfold pton6 at h
  split at h
  · exact absurd h (by simp)
  split at h
  · split at h
    · exact pton6Loop_length _ _ _ _ _ _ _ (by simp) (by simp) h
    · exact absurd h (by simp)
  · exact pton6Loop_length _ _ _ _ _ _ _ (by simp) (by simp) h

theorem writeA_sa (a : socketaddr) (off : Nat) (bs : List Nat)
    (h : off + bs.length ≤ STORAGE_SIZE) :
    (writeA a off bs).sa = a.sa.take off ++ bs ++ a.sa.drop (off + bs.length) := by
  simp only [writeA]
  rw [dif_pos (by rw [a.hlen]; exact h)]
  rfl

theorem set_family_sa (a : socketaddr) (f : Nat) :
    (set_family a f).sa = f % 256 :: f / 256 % 256 :: List.replicate 126 0 := rfl

theorem set_shape_v4 (a0 : socketaddr) (L : List Char) (P : Nat) (bs : List Nat)
    (h : pton4 L = some bs) :
    (set a0 L P).1 = 0 ∧
    (set a0 L P).2.sa =
      2 :: 0 :: (P / 256 % 256) :: (P % 256) :: (bs ++ List.replicate 120 0) := by
  have hlen : bs.length = 4 := pton4_length h
  have his : is AF_INET L = true := by simp [is, inet_pton, AF_INET, h]
  have hfam1 : get_family (set_family a0 AF_INET) = AF_INET := rfl
  have e2 : set_addr (set_family a0 AF_INET) L = (0, writeA (set_family a0 AF_INET) 4 bs) := by
    unfold set_addr
    rw [hfam1, if_pos rfl, h]
  have e3 : (writeA (set_family a0 AF_INET) 4 bs).sa =
      2 :: 0 :: 0 :: 0 :: (bs ++ List.replicate 120 0) := by
    rw [writeA_sa _ _ _ (by rw [hlen]; decide)]
    rw [hlen]
    have t1 : (set_family a0 AF_INET).sa.take 4 = [2, 0, 0, 0] := rfl
    have t2 : (set_family a0 AF_INET).sa.drop 8 = List.replicate 120 0 := rfl
    rw [t1, t2]
    simp
  have hfam2 : get_family (writeA (set_family a0 AF_INET) 4 bs) = AF_INET := by
    unfold get_family
    rw [e3]
    rfl
  have e4 : set_port (writeA (set_family a0 AF_INET) 4 bs) P =
      (0, writeA (writeA (set_family a0 AF_INET) 4 bs) 2 (hton16 P)) := by
    unfold set_port
    rw [hfam2, if_pos rfl]
  have e5 : (writeA (writeA (set_family a0 AF_INET) 4 bs) 2 (hton16 P)).sa =
      2 :: 0 :: (P / 256 % 256) :: (P % 256) :: (bs ++ List.replicate 120 0) := by
    rw [writeA_sa _ _ _ (by norm_num [hton16, STORAGE_SIZE])]
    rw [e3]
    have t3 : ((2 : Nat) :: 0 :: 0 :: 0 :: (bs ++ List.replicate 120 0)).take 2 = [2, 0] := rfl
    have t4 : ((2 : Nat) :: 0 :: 0 :: 0 :: (bs ++ List.replicate 120 0)).drop
        (2 + (hton16 P).length) = bs ++ List.replicate 120 0 := rfl
    rw [t3, t4]
    simp [hton16]
  have hset : set a0 L P =
      (0, writeA (writeA (set_family a0 AF_INET) 4 bs) 2 (hton16 P)) := by
    unfold set
    rw [his, if_pos rfl]
    unfold setFrom
    rw [e2]
    simp only [ne_eq]
    rw [if_neg (by simp)]
    rw [e4]
    simp
  rw [hset]
  exact ⟨rfl, e5⟩

theorem set_shape_v6 (a0 : socketaddr) (L : List Char) (P : Nat) (bs : List Nat)
    (h4 : pton4 L = none) (h : pton6 L = some bs) :
    (set a0 L P).1 = 0 ∧
    (set a0 L P).2.sa =
      10 :: 0 :: (P / 256 % 256) :: (P % 256) :: 0 :: 0 :: 0 :: 0 ::
        (bs ++ List.replicate 104 0) := by
  have hlen : bs.length = 16 := pton6_length h
  have his4 : is AF_INET L = false := by simp [is, inet_pton, AF_INET, h4]
  have his6 : is AF_INET6 L = true := by simp [is, inet_pton, AF_INET6, AF_INET, h]
  have hfam1 : get_family (set_family a0 AF_INET6) = AF_INET6 := rfl
  have e2 : set_addr (set_family a0 AF_INET6) L =
      (0, writeA (set_family a0 AF_INET6) 8 bs) := by
    unfold set_addr
    rw [hfam1, if_neg (by decide), if_pos rfl, h]
  have e3 : (writeA (set_family a0 AF_INET6) 8 bs).sa =
      10 :: 0 :: 0 :: 0 :: 0 :: 0 :: 0 :: 0 :: (bs ++ List.replicate 104 0) := by
    rw [writeA_sa _ _ _ (by rw [hlen]; decide)]
    rw [hlen]
    have t1 : (set_family a0 AF_INET6).sa.take 8 = [10, 0, 0, 0, 0, 0, 0, 0] := rfl
    have t2 : (set_family a0 AF_INET6).sa.drop 24 = List.replicate 104 0 := rfl
    rw [t1, t2]
    simp
  have hfam2 : get_family (writeA (set_family a0 AF_INET6) 8 bs) = AF_INET6 := by
    unfold get_family
    rw [e3]
    rfl
  have e4 : set_port (writeA (set_family a0 AF_INET6) 8 bs) P =
      (0, writeA (writeA (set_family a0 AF_INET6) 8 bs) 2 (hton16 P)) := by
    unfold set_port
    rw [hfam2, if_neg (by decide), if_pos rfl]
  have e5 : (writeA (writeA (set_family a0 AF_INET6) 8 bs) 2 (hton16 P)).sa =
      10 :: 0 :: (P / 256 % 256) :: (P % 256) :: 0 :: 0 :: 0 :: 0 ::
        (bs ++ List.replicate 104 0) := by
    rw [writeA_sa _ _ _ (by norm_num [hton16, STORAGE_SIZE])]
    rw [e3]
    have t3 : ((10 : Nat) :: 0 :: 0 :: 0 :: 0 :: 0 :: 0 :: 0 ::
        (bs ++ List.replicate 104 0)).take 2 = [10, 0] := rfl
    have t4 : ((10 : Nat) :: 0 :: 0 :: 0 :: 0 :: 0 :: 0 :: 0 ::
        (bs ++ List.replicate 104 0)).drop (2 + (hton16 P).length) =
        0 :: 0 :: 0 :: 0 :: (bs ++ List.replicate 104 0) := rfl
    rw [t3, t4]
    simp [hton16]
  have hset : set a0 L P =
      (0, writeA (writeA (set_family a0 AF_INET6) 8 bs) 2 (hton16 P)) := by
    unfold set
    rw [his4]
    rw [if_neg (by simp)]
    rw [his6, if_pos rfl]
    unfold setFrom
    rw [e2]
    simp only [ne_eq]
    rw [if_neg (by simp)]
    rw [e4]
    simp
  rw [hset]
  exact ⟨rfl, e5⟩

theorem accessors_v4 (P : Nat) (bs : List Nat) (a : socketaddr) (hbs : bs.length = 4)
    (hsa : a.sa = 2 :: 0 :: (P / 256 % 256) :: (P % 256) :: (bs ++ List.replicate 120 0)) :
    get_family a = AF_INET ∧ get_addrS a = ntop4 bs ∧
      get_portS a = (P / 256 % 256) * 256 + P % 256 := by
  have hfam : get_family a = AF_INET := by
    unfold get_family
    rw [hsa]
    rfl
  refine ⟨hfam, ?_, ?_⟩
  · unfold get_addrS get_addrB
    rw [hfam, if_pos rfl]
    rw [hsa]
    have t1 : ((2 : Nat) :: 0 :: (P / 256 % 256) :: (P % 256) ::
        (bs ++ List.replicate 120 0)).drop 4 = bs ++ List.replicate 120 0 := rfl
    rw [t1, List.take_left' hbs]
  · unfold get_portS get_portB
    rw [hfam, if_pos rfl]
    rw [hsa]
    rfl

theorem accessors_v6 (P : Nat) (bs : List Nat) (a : socketaddr) (hbs : bs.length = 16)
    (hsa : a.sa = 10 :: 0 :: (P / 256 % 256) :: (P % 256) :: 0 :: 0 :: 0 :: 0 ::
      (bs ++ List.replicate 104 0)) :
    get_family a = AF_INET6 ∧ get_addrS a = ntop6 bs ∧
      get_portS a = (P / 256 % 256) * 256 + P % 256 := by
  have hfam : get_family a = AF_INET6 := by
    unfold get_family
    rw [hsa]
    rfl
  refine ⟨hfam, ?_, ?_⟩
  · unfold get_addrS get_addrB
    rw [hfam, if_neg (by decide), if_pos rfl]
    rw [hsa]
    have t1 : ((10 : Nat) :: 0 :: (P / 256 % 256) :: (P % 256) :: 0 :: 0 :: 0 :: 0 ::
        (bs ++ List.replicate 104 0)).drop 8 = bs ++ List.replicate 104 0 := rfl
    rw [t1, List.take_left' hbs]
  · unfold get_portS get_portB
    rw [hfam, if_neg (by decide), if_pos rfl]
    rw [hsa]
    rfl

theorem port_roundtrip {P : Nat} (h : P < 65536) : (P / 256 % 256) * 256 + P % 256 = P := by
  omega

theorem display_v4 (a : socketaddr) (h2 : get_family a = AF_INET) :
    display a = get_addrS a ++ ':' :: decChars (get_portS a) := by
  unfold display
  rw [h2, if_pos rfl]

theorem display_v6 (a : socketaddr) (h2 : get_family a = AF_INET6) :
    display a = '[' :: get_addrS a ++ ']' :: ':' :: decChars (get_portS a) := by
  unfold display
  rw [h2, if_neg (by decide), if_pos rfl]

theorem saEq_of_sa_eq {a b : socketaddr} (h : a.sa = b.sa) : saEq a b = true := by
  simp [saEq, h, memcmpBytes_refl]

theorem setNative_shape_v4 (b0 : socketaddr) (P : Nat) (bs : List Nat) (hbs : bs.length = 4) :
    (setNative b0 (2 :: 0 :: (P / 256 % 256) :: (P % 256) ::
        (bs ++ List.replicate 120 0))).sa =
      2 :: 0 :: (P / 256 % 256) :: (P % 256) :: (bs ++ List.replicate 120 0) := by
  have hrf : rawFam (2 :: 0 :: (P / 256 % 256) :: (P % 256) ::
      (bs ++ List.replicate 120 0)) = AF_INET := rfl
  have htake : (2 :: 0 :: (P / 256 % 256) :: (P % 256) ::
      (bs ++ List.replicate 120 0)).take 16 =
      2 :: 0 :: (P / 256 % 256) :: (P % 256) :: (bs ++ List.replicate 8 0) := by
    have t0 : (2 :: 0 :: (P / 256 % 256) :: (P % 256) ::
        (bs ++ List.replicate 120 0)).take 16 =
        2 :: 0 :: (P / 256 % 256) :: (P % 256) :: ((bs ++ List.replicate 120 0).take 12) := rfl
    rw [t0, List.take_append_eq_append_take, List.take_of_length_le (by omega),
      List.take_replicate, hbs]
    norm_num
  have hlen16 : (((2 : Nat) :: 0 :: (P / 256 % 256) :: (P % 256) ::
      (bs ++ List.replicate 120 0)).take 16).length = 16 := by
    rw [htake]
    simp [hbs]
  unfold setNative
  rw [hrf, if_pos rfl]
  rw [writeA_sa _ _ _ (by rw [hlen16]; decide)]
  rw [hlen16, htake]
  have tz : (set_family b0 AF_UNSPEC).sa.take 0 = [] := rfl
  have tz2 : (set_family b0 AF_UNSPEC).sa.drop 16 = List.replicate 112 0 := rfl
  rw [tz, tz2]
  simp only [List.nil_append, List.cons_append, List.append_assoc]
  rw [← List.replicate_add]

theorem setNative_shape_v6 (b0 : socketaddr) (P : Nat) (bs : List Nat) (hbs : bs.length = 16) :
    (setNative b0 (10 :: 0 :: (P / 256 % 256) :: (P % 256) :: 0 :: 0 :: 0 :: 0 ::
        (bs ++ List.replicate 104 0))).sa =
      10 :: 0 :: (P / 256 % 256) :: (P % 256) :: 0 :: 0 :: 0 :: 0 ::
        (bs ++ List.replicate 104 0) := by
  have hrf : rawFam (10 :: 0 :: (P / 256 % 256) :: (P % 256) :: 0 :: 0 :: 0 :: 0 ::
      (bs ++ List.replicate 104 0)) = AF_INET6 := rfl
  have htake : (10 :: 0 :: (P / 256 % 256) :: (P % 256) :: 0 :: 0 :: 0 :: 0 ::
      (bs ++ List.replicate 104 0)).take 28 =
      10 :: 0 :: (P / 256 % 256) :: (P % 256) :: 0 :: 0 :: 0 :: 0 ::
        (bs ++ List.replicate 4 0) := by
    have t0 : (10 :: 0 :: (P / 256 % 256) :: (P % 256) :: 0 :: 0 :: 0 :: 0 ::
        (bs ++ List.replicate 104 0)).take 28 =
        10 :: 0 :: (P / 256 % 256) :: (P % 256) :: 0 :: 0 :: 0 :: 0 ::
          ((bs ++ List.replicate 104 0).take 20) := rfl
    rw [t0, List.take_append_eq_append_take, List.take_of_length_le (by omega),
      List.take_replicate, hbs]
    norm_num
  have hlen28 : (((10 : Nat) :: 0 :: (P / 256 % 256) :: (P % 256) :: 0 :: 0 :: 0 :: 0 ::
      (bs ++ List.replicate 104 0)).take 28).length = 28 := by
    rw [htake]
    simp [hbs]
  unfold setNative
  rw [hrf, if_neg (by decide), if_pos rfl]
  rw [writeA_sa _ _ _ (by rw [hlen28]; decide)]
  rw [hlen28, htake]
  have tz : (set_family b0 AF_UNSPEC).sa.take 0 = [] := rfl
  have tz2 : (set_family b0 AF_UNSPEC).sa.drop 28 = List.replicate 100 0 := rfl
  rw [tz, tz2]
  simp only [List.nil_append, List.cons_append, List.append_assoc]
  rw [← List.replicate_add]

theorem setNative_unspec (b0 : socketaddr) (raw : List Nat)
    (h1 : rawFam raw ≠ AF_INET) (h2 : rawFam raw ≠ AF_INET6) :
    setNative b0 raw = socketaddrDefault := by
  unfold setNative
  rw [if_neg h1, if_neg h2]
  apply socketaddr_ext
  rfl

theorem set_addrE_errno (a : socketaddr) (ip : List Char) (e : Nat) :
    (set_addrE a ip e).2.2 =
      (if (set_addrE a ip e).1 = 0 then e else (set_addrE a ip e).1) := by
  unfold set_addrE
  split
  · cases pton4 ip <;> simp [EINVAL]
  · split
    · cases pton6 ip <;> simp [EINVAL]
    · simp [EAFNOSUPPORT]

theorem set_portE_errno (a : socketaddr) (p e : Nat) :
    (set_portE a p e).2.2 =
      (if (set_portE a p e).1 = 0 then e else (set_portE a p e).1) := by
  unfold set_portE
  split
  · simp
  · split
    · simp
    · simp [EAFNOSUPPORT]

theorem setFromE_errno (a1 : socketaddr) (ip : List Char) (p e : Nat) :
    (setFromE a1 ip p e).2.2 =
      (if (setFromE a1 ip p e).1 = 0 then e else (setFromE a1 ip p e).1) := by
  unfold setFromE
  by_cases h1 : (set_addrE a1 ip e).1 ≠ 0
  · rw [if_pos h1]
    rw [set_addrE_errno, if_neg (by omega)]
  · rw [if_neg h1]
    have he1 : (set_addrE a1 ip e).2.2 = e := by
      rw [set_addrE_errno, if_pos (by omega)]
    rw [he1]
    by_cases h2 : (set_portE (set_addrE a1 ip e).2.1 p e).1 ≠ 0
    · rw [if_pos h2]
      rw [set_portE_errno]
    · rw [if_neg h2]
      simp only [ne_eq, Decidable.not_not] at h2
      simp [h2]
      rw [set_portE_errno, if_pos h2]

theorem setE_errno (a : socketaddr) (ip : List Char) (p e : Nat) :
    (setE a ip p e).2.2 = (if (setE a ip p e).1 = 0 then e else (setE a ip p e).1) := by
  unfold setE
  split
  · exact setFromE_errno _ _ _ _
  · split
    · exact setFromE_errno _ _ _ _
    · simp [EAFNOSUPPORT]

theorem get_addrE_errno (a : socketaddr) (buf : List Char) (e : Nat) :
    (get_addrE a buf e).2.2 =
      (if (get_addrE a buf e).1 = 0 then e else (get_addrE a buf e).1) := by
  unfold get_addrE
  split
  · simp
  · split
    · simp
    · simp [EAFNOSUPPORT]

theorem get_portE_errno (a : socketaddr) (p e : Nat) : (get_portE a p e).2.2 = e := by
  unfold get_portE
  split
  · simp
  · split <;> simp

set_option maxRecDepth 100000

/-- C1 (amended): for every valid IPv4 literal L and port P, `set(L,P)`
returns 0, after which the family is `AF_INET`, `get_addr()` is L,
`get_port()` is P, and the stream output is `L ++ ":" ++ P`; for every
valid IPv6 literal L and port P the same holds with family `AF_INET6`,
except that `get_addr()` and the stream output render the canonical
compressed lowercase form of L (the bytes parsed from L printed by the
platform printer), which coincides with L exactly when L is already
canonical; the stream output is `"[" ++ canon ++ "]:" ++ P`. -/
theorem C1_theorem (a0 : socketaddr) (L : List Char) (P : Nat) (hP : P < 65536) :
    (is_ipv4 L = true →
      (set a0 L P).1 = 0 ∧ get_family (set a0 L P).2 = AF_INET ∧
      get_addrS (set a0 L P).2 = L ∧ get_portS (set a0 L P).2 = P ∧
      display (set a0 L P).2 = L ++ ':' :: decChars P) ∧
    (is_ipv4 L = false → is_ipv6 L = true →
      ∀ bs, pton6 L = some bs →
        (set a0 L P).1 = 0 ∧ get_family (set a0 L P).2 = AF_INET6 ∧
        get_addrS (set a0 L P).2 = ntop6 bs ∧ get_portS (set a0 L P).2 = P ∧
        display (set a0 L P).2 = '[' :: ntop6 bs ++ ']' :: ':' :: decChars P) := by
  constructor
  · intro h4
    obtain ⟨bs, hbs⟩ : ∃ bs, pton4 L = some bs := by
      simpa [is_ipv4, is, inet_pton, AF_INET, Option.isSome_iff_exists] using h4
    obtain ⟨he, hsa⟩ := set_shape_v4 a0 L P bs hbs
    obtain ⟨hf, ha, hp⟩ := accessors_v4 P bs _ (pton4_length hbs) hsa
    have haddr : get_addrS (set a0 L P).2 = L := by rw [ha, pton4_ntop4 hbs]
    have hport : get_portS (set a0 L P).2 = P := by rw [hp, port_roundtrip hP]
    refine ⟨he, hf, haddr, hport, ?_⟩
    rw [display_v4 _ hf, haddr, hport]
  · intro h4 _ bs hbs
    have hp4 : pton4 L = none := by
      cases hh : pton4 L with
      | none => rfl
      | some x => simp [is_ipv4, is, inet_pton, AF_INET, hh] at h4
    obtain ⟨he, hsa⟩ := set_shape_v6 a0 L P bs hp4 hbs
    obtain ⟨hf, ha, hp⟩ := accessors_v6 P bs _ (pton6_length hbs) hsa
    have hport : get_portS (set a0 L P).2 = P := by rw [hp, port_roundtrip hP]
    refine ⟨he, hf, ha, hport, ?_⟩
    rw [display_v6 _ hf, ha, hport]

/-- C1 witness: `set("127.0.0.1", 8080)` gives back exactly that literal and
the display string `127.0.0.1:8080`; `set("::1", 443)` keeps the canonical
literal `::1` and displays `[::1]:443`. -/
theorem C1_witness :
    (get_addrS (set socketaddrDefault ("127.0.0.1").data 8080).2 = ("127.0.0.1").data ∧
      display (set socketaddrDefault ("127.0.0.1").data 8080).2 =
        ("127.0.0.1").data ++ ':' :: decChars 8080) ∧
    get_addrS (set socketaddrDefault ("::1").data 443).2 = ("::1").data := by
  have h1 := (C1_theorem socketaddrDefault ("127.0.0.1").data 8080 (by decide)).1 (by decide)
  have h2 := (C1_theorem socketaddrDefault ("::1").data 443 (by decide)).2 (by decide)
    (by decide) (pton6 ("::1").data).get! (by decide)
  refine ⟨⟨h1.2.2.1, h1.2.2.2.2⟩, ?_⟩
  rw [h2.2.2.1]
  decide

/-- C1 counterexample: `"0:0:0:0:0:0:0:1"` is a valid IPv6 literal, `set`
accepts it, but `get_addr()` returns the canonical form `"::1"`, not the
original literal, and the stream output is `"[::1]:443"`. -/
theorem C1_counterexample :
    is_ipv6 ("0:0:0:0:0:0:0:1").data = true ∧
    (set socketaddrDefault ("0:0:0:0:0:0:0:1").data 443).1 = 0 ∧
    get_addrS (set socketaddrDefault ("0:0:0:0:0:0:0:1").data 443).2 ≠
      ("0:0:0:0:0:0:0:1").data ∧
    display (set socketaddrDefault ("0:0:0:0:0:0:0:1").data 443).2 ≠
      '[' :: ("0:0:0:0:0:0:0:1").data ++ ']' :: ':' :: decChars 443 := by
  decide

/-- C2: `operator==` is reflexive, symmetric and transitive; `operator<` is
asymmetric and transitive, and for every pair exactly one of `a < b`,
`b < a`, `a == b` holds (both compare the raw storage with `memcmp`). -/
theorem C2_theorem (a b c : socketaddr) :
    saEq a a = true ∧
    (saEq a b = true → saEq b a = true) ∧
    (saEq a b = true → saEq b c = true → saEq a c = true) ∧
    ¬(saLt a b = true ∧ saLt b a = true) ∧
    (saLt a b = true → saLt b c = true → saLt a c = true) ∧
    ((saLt a b = true ∧ saLt b a = false ∧ saEq a b = false) ∨
     (saLt b a = true ∧ saLt a b = false ∧ saEq a b = false) ∨
     (saEq a b = true ∧ saLt a b = false ∧ saLt b a = false)) := by
  have heq : ∀ x y : socketaddr, saEq x y = true ↔ x.sa = y.sa := by
    intro x y
    simp [saEq, memcmpBytes_eq_iff]
  have hlt : ∀ x y : socketaddr, saLt x y = true ↔ memcmpBytes x.sa y.sa = Ordering.lt := by
    intro x y
    simp [saLt]
  refine ⟨?_, ?_, ?_, ?_, ?_, ?_⟩
  · exact (heq a a).mpr rfl
  · intro h
    exact (heq b a).mpr ((heq a b).mp h).symm
  · intro h1 h2
    exact (heq a c).mpr (((heq a b).mp h1).trans ((heq b c).mp h2))
  · rintro ⟨h1, h2⟩
    have g1 := (hlt a b).mp h1
    have g2 := (hlt b a).mp h2
    rw [memcmpBytes_swap, g1] at g2
    exact absurd g2 (by decide)
  · intro h1 h2
    exact (hlt a c).mpr (memcmpBytes_lt_trans _ _ _ ((hlt a b).mp h1) ((hlt b c).mp h2))
  · cases hm : memcmpBytes a.sa b.sa with
    | lt =>
      left
      have hrev : memcmpBytes b.sa a.sa = Ordering.gt := by
        rw [memcmpBytes_swap, hm]
        rfl
      refine ⟨(hlt a b).mpr hm, ?_, ?_⟩
      · simp [saLt, hrev]
      · simp [saEq, hm]
    | eq =>
      right
      right
      have hrev : memcmpBytes b.sa a.sa = Ordering.eq := by
        rw [memcmpBytes_swap, hm]
        rfl
      refine ⟨(heq a b).mpr ((memcmpBytes_eq_iff _ _).mp hm), ?_, ?_⟩
      · simp [saLt, hm]
      · simp [saLt, hrev]
    | gt =>
      right
      left
      have hrev : memcmpBytes b.sa a.sa = Ordering.lt := by
        rw [memcmpBytes_swap, hm]
        rfl
      refine ⟨(hlt b a).mpr hrev, ?_, ?_⟩
      · simp [saLt, hm]
      · simp [saEq, hm]

/-- C2 witness: transitivity of `operator==` on copies of the default
address, and transitivity of `operator<` along the chain default <
`8.8.8.8:53` < `[::2]:53`. -/
theorem C2_witness :
    saEq socketaddrDefault socketaddrDefault = true ∧
    saLt socketaddrDefault (set socketaddrDefault ("::2").data 53).2 = true := by
  have h := C2_theorem socketaddrDefault (set socketaddrDefault ("8.8.8.8").data 53).2
    (set socketaddrDefault ("::2").data 53).2
  exact ⟨(C2_theorem socketaddrDefault socketaddrDefault socketaddrDefault).2.2.1
      (by decide) (by decide),
    h.2.2.2.2.1 (by decide) (by decide)⟩

/-- C3: after a successful `set(text, port)` on A, loading A's raw native
bytes into any other socketaddr with `set(const sockaddr*)` reproduces a
value byte-wise equal to A. -/
theorem C3_theorem (a0 b0 : socketaddr) (L : List Char) (P : Nat)
    (h : (set a0 L P).1 = 0) :
    saEq (setNative b0 ((set a0 L P).2).sa) ((set a0 L P).2) = true := by
  cases h4 : pton4 L with
  | some bs =>
    obtain ⟨he, hsa⟩ := set_shape_v4 a0 L P bs h4
    apply saEq_of_sa_eq
    rw [hsa]
    exact setNative_shape_v4 b0 P bs (pton4_length h4)
  | none =>
    cases h6 : pton6 L with
    | some bs =>
      obtain ⟨he, hsa⟩ := set_shape_v6 a0 L P bs h4 h6
      apply saEq_of_sa_eq
      rw [hsa]
      exact setNative_shape_v6 b0 P bs (pton6_length h6)
    | none =>
      have hi4 : is AF_INET L = false := by simp [is, inet_pton, AF_INET, h4]
      have hi6 : is AF_INET6 L = false := by simp [is, inet_pton, AF_INET6, AF_INET, h6]
      have hfail : (set a0 L P).1 = EAFNOSUPPORT := by
        unfold set
        rw [hi4]
        rw [if_neg (by simp)]
        rw [hi6, if_neg (by simp)]
      rw [hfail] at h
      exact absurd h (by decide)

/-- C3 witness: round trip through the native view for `127.0.0.1:80`. -/
theorem C3_witness :
    saEq (setNative socketaddrDefault
        ((set socketaddrDefault ("127.0.0.1").data 80).2).sa)
      ((set socketaddrDefault ("127.0.0.1").data 80).2) = true :=
  C3_theorem socketaddrDefault socketaddrDefault ("127.0.0.1").data 80 (by decide)

/-- C4: `set_addr` returns `EAFNOSUPPORT` when the stored family is neither
IPv4 nor IPv6; with family IPv4 (resp. IPv6) it returns `EINVAL` leaving the
value untouched when the text does not parse, and writes the parsed payload
bytes at the family's address offset returning 0 when it does. -/
theorem C4_theorem (a : socketaddr) (ip : List Char) :
    (get_family a ≠ AF_INET → get_family a ≠ AF_INET6 →
      set_addr a ip = (EAFNOSUPPORT, a)) ∧
    (get_family a = AF_INET →
      (pton4 ip = none → set_addr a ip = (EINVAL, a)) ∧
      (∀ bs, pton4 ip = some bs →
        (set_addr a ip).1 = 0 ∧
        ((set_addr a ip).2).sa = a.sa.take 4 ++ bs ++ a.sa.drop 8)) ∧
    (get_family a = AF_INET6 →
      (pton6 ip = none → set_addr a ip = (EINVAL, a)) ∧
      (∀ bs, pton6 ip = some bs →
        (set_addr a ip).1 = 0 ∧
        ((set_addr a ip).2).sa = a.sa.take 8 ++ bs ++ a.sa.drop 24)) := by
  refine ⟨?_, ?_, ?_⟩
  · intro h1 h2
    unfold set_addr
    rw [if_neg h1, if_neg h2]
  · intro hf
    constructor
    · intro hn
      unfold set_addr
      rw [hf, if_pos rfl, hn]
    · intro bs hbs
      have e : set_addr a ip = (0, writeA a 4 bs) := by
        unfold set_addr
        rw [hf, if_pos rfl, hbs]
      rw [e]
      refine ⟨rfl, ?_⟩
      rw [writeA_sa _ _ _ (by rw [pton4_length hbs]; decide)]
      rw [pton4_length hbs]
  · intro hf
    constructor
    · intro hn
      unfold set_addr
      rw [hf, if_neg (by decide), if_pos rfl, hn]
    · intro bs hbs
      have e : set_addr a ip = (0, writeA a 8 bs) := by
        unfold set_addr
        rw [hf, if_neg (by decide), if_pos rfl, hbs]
      rw [e]
      refine ⟨rfl, ?_⟩
      rw [writeA_sa _ _ _ (by rw [pton6_length hbs]; decide)]
      rw [pton6_length hbs]

/-- C4 witness: the unsupported-family, invalid-format and success paths of
`set_addr` on concrete inputs. -/
theorem C4_witness :
    set_addr socketaddrDefault ("1.2.3.4").data = (EAFNOSUPPORT, socketaddrDefault) ∧
    set_addr (set_family socketaddrDefault AF_INET) ("bad").data =
      (EINVAL, set_family socketaddrDefault AF_INET) ∧
    (set_addr (set_family socketaddrDefault AF_INET) ("1.2.3.4").data).1 = 0 :=
  ⟨(C4_theorem socketaddrDefault ("1.2.3.4").data).1 (by decide) (by decide),
    ((C4_theorem (set_family socketaddrDefault AF_INET) ("bad").data).2.1
      (by decide)).1 (by decide),
    (((C4_theorem (set_family socketaddrDefault AF_INET) ("1.2.3.4").data).2.1
      (by decide)).2 [1, 2, 3, 4] (by decide)).1⟩

/-- C5: for text that is neither a valid IPv4 nor IPv6 literal,
`set(text, port)` fails with `EAFNOSUPPORT` and both family probes are
false. -/
theorem C5_theorem (a : socketaddr) (L : List Char) (P : Nat)
    (h4 : pton4 L = none) (h6 : pton6 L = none) :
    (set a L P).1 = EAFNOSUPPORT ∧ is_ipv4 L = false ∧ is_ipv6 L = false := by
  have hi4 : is AF_INET L = false := by simp [is, inet_pton, AF_INET, h4]
  have hi6 : is AF_INET6 L = false := by simp [is, inet_pton, AF_INET6, AF_INET, h6]
  refine ⟨?_, hi4, hi6⟩
  unfold set
  rw [hi4]
  rw [if_neg (by simp)]
  rw [hi6, if_neg (by simp)]

/-- C5 witness: the spec's scenario `set("not-an-ip", 80)`. -/
theorem C5_witness :
    (set socketaddrDefault ("not-an-ip").data 80).1 = EAFNOSUPPORT ∧
    is_ipv4 ("not-an-ip").data = false ∧ is_ipv6 ("not-an-ip").data = false :=
  C5_theorem socketaddrDefault ("not-an-ip").data 80 (by decide) (by decide)

/-- C6: a default-constructed socketaddr has family `AF_UNSPEC` and all-zero
storage, and both fallible accessors fail with `EAFNOSUPPORT`, leaving their
output arguments untouched. -/
theorem C6_theorem :
    socketaddrDefault.sa = List.replicate STORAGE_SIZE 0 ∧
    get_family socketaddrDefault = AF_UNSPEC ∧
    (∀ buf : List Char, get_addrB socketaddrDefault buf = (EAFNOSUPPORT, buf)) ∧
    (∀ p : Nat, get_portB socketaddrDefault p = (EAFNOSUPPORT, p)) := by
  refine ⟨rfl, rfl, ?_, ?_⟩
  · intro buf
    unfold get_addrB
    rw [if_neg (by decide), if_neg (by decide)]
  · intro p
    unfold get_portB
    rw [if_neg (by decide), if_neg (by decide)]

/-- C7: `set(const sockaddr*)` with an unrecognised family discriminator
leaves the Unspecified all-zero state; with the IPv4 (resp. IPv6)
discriminator it copies exactly the 16 (resp. 28) bytes of the
family-specific layout over zeroed storage. -/
theorem C7_theorem (a : socketaddr) (raw : List Nat) :
    ((rawFam raw ≠ AF_INET ∧ rawFam raw ≠ AF_INET6) →
      setNative a raw = socketaddrDefault) ∧
    (rawFam raw = AF_INET → 16 ≤ raw.length →
      (setNative a raw).sa = raw.take 16 ++ List.replicate 112 0) ∧
    (rawFam raw = AF_INET6 → 28 ≤ raw.length →
      (setNative a raw).sa = raw.take 28 ++ List.replicate 100 0) := by
  refine ⟨?_, ?_, ?_⟩
  · rintro ⟨h1, h2⟩
    exact setNative_unspec a raw h1 h2
  · intro hf hlen
    have hl : (raw.take 16).length = 16 := by
      rw [List.length_take]
      omega
    unfold setNative
    rw [if_pos hf]
    rw [writeA_sa _ _ _ (by rw [hl]; decide)]
    rw [hl]
    have t0 : (set_family a AF_UNSPEC).sa.take 0 = [] := rfl
    have tz : (set_family a AF_UNSPEC).sa.drop (0 + 16) = List.replicate 112 0 := rfl
    rw [t0, tz]
    simp
  · intro hf hlen
    have hl : (raw.take 28).length = 28 := by
      rw [List.length_take]
      omega
    unfold setNative
    rw [hf, if_neg (by decide), if_pos rfl]
    rw [writeA_sa _ _ _ (by rw [hl]; decide)]
    rw [hl]
    have t0 : (set_family a AF_UNSPEC).sa.take 0 = [] := rfl
    have tz : (set_family a AF_UNSPEC).sa.drop (0 + 28) = List.replicate 100 0 := rfl
    rw [t0, tz]
    simp

/-- C7 witness: loading a concrete 16-byte native IPv4 structure, a
structure with an unknown discriminator, and a 28-byte IPv6 structure. -/
theorem C7_witness :
    (setNative socketaddrDefault ([2, 0, 0, 80] ++ List.replicate 12 0)).sa =
      ([2, 0, 0, 80] ++ List.replicate 12 0).take 16 ++ List.replicate 112 0 ∧
    setNative socketaddrDefault [9, 9] = socketaddrDefault ∧
    (setNative socketaddrDefault ([10, 0, 1, 187] ++ List.replicate 24 0)).sa =
      ([10, 0, 1, 187] ++ List.replicate 24 0).take 28 ++ List.replicate 100 0 :=
  ⟨(C7_theorem socketaddrDefault ([2, 0, 0, 80] ++ List.replicate 12 0)).2.1
      (by decide) (by decide),
    (C7_theorem socketaddrDefault [9, 9]).1 ⟨by decide, by decide⟩,
    (C7_theorem socketaddrDefault ([10, 0, 1, 187] ++ List.replicate 24 0)).2.2
      (by decide) (by decide)⟩

/-- C8 (amended): every fallible operation communicates its outcome through
its explicit return value, but `set_addr`, `set_port`, `set` and the
fallible `get_addr` also assign the returned error code to the process-wide
`errno` on their failure paths (leaving `errno` unchanged on success), while
`get_port` never modifies `errno`. -/
theorem C8_theorem (a : socketaddr) (ip buf : List Char) (p e : Nat) :
    (set_addrE a ip e).2.2 =
      (if (set_addrE a ip e).1 = 0 then e else (set_addrE a ip e).1) ∧
    (set_portE a p e).2.2 =
      (if (set_portE a p e).1 = 0 then e else (set_portE a p e).1) ∧
    (setE a ip p e).2.2 = (if (setE a ip p e).1 = 0 then e else (setE a ip p e).1) ∧
    (get_addrE a buf e).2.2 =
      (if (get_addrE a buf e).1 = 0 then e else (get_addrE a buf e).1) ∧
    (get_portE a p e).2.2 = e :=
  ⟨set_addrE_errno a ip e, set_portE_errno a p e, setE_errno a ip p e,
    get_addrE_errno a buf e, get_portE_errno a p e⟩

/-- C8 counterexample: calling `set_addr` on a default-constructed value
with `errno` initially 0 leaves `errno` equal to `EAFNOSUPPORT`, a
process-wide side effect beyond the returned value. -/
theorem C8_counterexample :
    (set_addrE socketaddrDefault ("127.0.0.1").data 0).2.2 = EAFNOSUPPORT ∧
    EAFNOSUPPORT ≠ 0 := by
  decide

/-- C9: with family Unspecified the value-returning accessors silently
return the empty string and port 0; a successfully set address
(`set("1.2.3.4", 0)`) also reports port 0, indistinguishable from the
default's error case. -/
theorem C9_theorem :
    get_addrS socketaddrDefault = [] ∧
    get_portS socketaddrDefault = 0 ∧
    (set socketaddrDefault ("1.2.3.4").data 0).1 = 0 ∧
    get_family (set socketaddrDefault ("1.2.3.4").data 0).2 = AF_INET ∧
    get_portS (set socketaddrDefault ("1.2.3.4").data 0).2 =
      get_portS socketaddrDefault := by
  decide

/-- C10: on the unrecognised-text failure path, `set(text, port)` returns
`EAFNOSUPPORT` and the stored bytes are exactly what they were before. -/
theorem C10_theorem (a : socketaddr) (L : List Char) (P : Nat)
    (h4 : pton4 L = none) (h6 : pton6 L = none) :
    set a L P = (EAFNOSUPPORT, a) := by
  have hi4 : is AF_INET L = false := by simp [is, inet_pton, AF_INET, h4]
  have hi6 : is AF_INET6 L = false := by simp [is, inet_pton, AF_INET6, AF_INET, h6]
  unfold set
  rw [hi4]
  rw [if_neg (by simp)]
  rw [hi6, if_neg (by simp)]

/-- C10 witness: `set("hello", 1)` fails and leaves the default state
byte-for-byte unchanged. -/
theorem C10_witness :
    set socketaddrDefault ("hello").data 1 = (EAFNOSUPPORT, socketaddrDefault) :=
  C10_theorem socketaddrDefault ("hello").data 1 (by decide) (by decide)

end cppsock
